import Mathlib

/-!
Shallow embedding of the query-response reconciler in
`vaultiq-frontend/src/hooks/useApiStream.ts` (the `useApiStream` hook's
`query` and `reset` operations), together with a model of the host
environment's `JSON.parse`, and proofs of the specified properties.

State mutations (`setAnswer`, `setSources`, `setIsLoading`, `setError`)
are modelled as an explicit list of effects `Eff` emitted by one `query`
invocation; the hook state is the fold of those effects.  Response bodies
are modelled as lists of already-decoded text chunks (the concrete
documents in the spec are ASCII, where `TextDecoder` is the identity and
byte boundaries coincide with character boundaries).
-/

namespace VaultIQ

/-- Characters that are awkward to quote under our lint rules. -/
def quoteCh : Char := Char.ofNat 34

def backslashCh : Char := Char.ofNat 92

def lbraceCh : Char := Char.ofNat 123

def rbraceCh : Char := Char.ofNat 125

/-- A JSON value as produced by `JSON.parse`.  Numbers keep their source
lexeme: the claims never depend on IEEE-754 numeric semantics, only on
truthiness (zero vs non-zero), which is decidable from the lexeme. -/
inductive Json where
  | null : Json
  | bool : Bool → Json
  | num : List Char → Json
  | str : List Char → Json
  | arr : List Json → Json
  | obj : List (List Char × Json) → Json

/-- A JavaScript value held in React state: either `undefined` or a JSON
value (strings and arrays from the source are embedded via `Json`). -/
inductive JsVal where
  | undefinedV : JsVal
  | val : Json → JsVal

/-- JSON whitespace (RFC 8259): space, tab, line feed, carriage return. -/
def isJsonWs (c : Char) : Bool :=
  c == ' ' || c == '\t' || c == '\n' || c == '\r'

def skipWs : List Char → List Char
  | [] => []
  | c :: cs => if isJsonWs c then skipWs cs else c :: cs

def isDigitCh (c : Char) : Bool :=
  48 ≤ c.toNat && c.toNat ≤ 57

/-- Hexadecimal digit value, by code point: `0-9`, `a-f`, `A-F`. -/
def hexVal (c : Char) : Option Nat :=
  let n := c.toNat
  if 48 ≤ n && n ≤ 57 then some (n - 48)
  else if 97 ≤ n && n ≤ 102 then some (n - 87)
  else if 65 ≤ n && n ≤ 70 then some (n - 55)
  else none

def parseHex4 : List Char → Option (Nat × List Char)
  | a :: b :: c :: d :: rest =>
    match hexVal a, hexVal b, hexVal c, hexVal d with
    | some x, some y, some z, some w => some (((x * 16 + y) * 16 + z) * 16 + w, rest)
    | _, _, _, _ => none
  | _ => none

/-- Single-character escape sequences of JSON strings. -/
def escChar (c : Char) : Option Char :=
  if c == quoteCh then some quoteCh
  else if c == backslashCh then some backslashCh
  else if c == '/' then some '/'
  else if c == 'b' then some (Char.ofNat 8)
  else if c == 'f' then some (Char.ofNat 12)
  else if c == 'n' then some '\n'
  else if c == 'r' then some '\r'
  else if c == 't' then some '\t'
  else none

/-- Digits of the JSON number grammar: a span of consecutive digits. -/
def takeDigits : List Char → List Char × List Char
  | [] => ([], [])
  | c :: cs =>
    if isDigitCh c then
      let r := takeDigits cs
      (c :: r.1, r.2)
    else ([], c :: cs)

/-- JSON number: `-? int frac? exp?`, returned as its lexeme. -/
def parseNum (input : List Char) : Option (Json × List Char) :=
  let (sgn, r0) :=
    match input with
    | '-' :: r => (['-'], r)
    | r => (([] : List Char), r)
  match r0 with
  | [] => none
  | c :: cs =>
    if c == '0' then
      parseNumTail sgn ['0'] cs
    else if isDigitCh c then
      let d := takeDigits cs
      parseNumTail sgn (c :: d.1) d.2
    else none
where
  parseNumTail (sgn intPart : List Char) (rest : List Char) : Option (Json × List Char) :=
    let (frac, r1) :=
      match rest with
      | '.' :: r =>
        let d := takeDigits r
        if d.1.isEmpty then (none, rest) else (some ('.' :: d.1), d.2)
      | r => (none, r)
    match frac, rest with
    | none, '.' :: _ => none
    | _, _ =>
      let fracL := frac.getD []
      match r1 with
      | 'e' :: r2 => parseExp sgn intPart fracL 'e' r2
      | 'E' :: r2 => parseExp sgn intPart fracL 'E' r2
      | _ => some (.num (sgn ++ intPart ++ fracL), r1)
  parseExp (sgn intPart fracL : List Char) (e : Char) (r2 : List Char) :
      Option (Json × List Char) :=
    let (esgn, r3) :=
      match r2 with
      | '+' :: r => (['+'], r)
      | '-' :: r => (['-'], r)
      | r => (([] : List Char), r)
    let d := takeDigits r3
    if d.1.isEmpty then none
    else some (.num (sgn ++ intPart ++ fracL ++ (e :: esgn ++ d.1)), d.2)

mutual

/-- Recursive-descent JSON value parser (model of `JSON.parse`'s grammar),
fuelled; `parseVal (n+1)` may recurse with fuel `n`. -/
def parseVal : Nat → List Char → Option (Json × List Char)
  | 0, _ => none
  | fuel + 1, input =>
    match skipWs input with
    | [] => none
    | c :: cs =>
      if c == lbraceCh then
        match skipWs cs with
        | d :: r => if d == rbraceCh then some (.obj [], r) else parseMembers fuel (d :: r) []
        | [] => none
      else if c == '[' then
        match skipWs cs with
        | d :: r => if d == ']' then some (.arr [], r) else parseItems fuel (d :: r) []
        | [] => none
      else if c == quoteCh then
        match parseStrBody fuel cs with
        | some (s, r) => some (.str s, r)
        | none => none
      else if c == 't' then
        match cs with
        | 'r' :: 'u' :: 'e' :: r => some (.bool true, r)
        | _ => none
      else if c == 'f' then
        match cs with
        | 'a' :: 'l' :: 's' :: 'e' :: r => some (.bool false, r)
        | _ => none
      else if c == 'n' then
        match cs with
        | 'u' :: 'l' :: 'l' :: r => some (.null, r)
        | _ => none
      else parseNum (c :: cs)

/-- Object members after the opening brace (input already whitespace-skipped,
positioned at the first key's opening quote). -/
def parseMembers : Nat → List Char → List (List Char × Json) → Option (Json × List Char)
  | 0, _, _ => none
  | fuel + 1, input, acc =>
    match input with
    | c :: cs =>
      if c == quoteCh then
        match parseStrBody fuel cs with
        | some (key, r1) =>
          match skipWs r1 with
          | ':' :: r2 =>
            match parseVal fuel r2 with
            | some (v, r3) =>
              match skipWs r3 with
              | d :: r4 =>
                if d == ',' then parseMembers fuel (skipWs r4) (acc ++ [(key, v)])
                else if d == rbraceCh then some (.obj (acc ++ [(key, v)]), r4)
                else none
              | [] => none
            | none => none
          | _ => none
        | none => none
      else none
    | [] => none

/-- Array items after the opening bracket. -/
def parseItems : Nat → List Char → List Json → Option (Json × List Char)
  | 0, _, _ => none
  | fuel + 1, input, acc =>
    match parseVal fuel input with
    | some (v, r1) =>
      match skipWs r1 with
      | d :: r2 =>
        if d == ',' then parseItems fuel r2 (acc ++ [v])
        else if d == ']' then some (.arr (acc ++ [v]), r2)
        else none
      | [] => none
    | none => none

/-- Body of a JSON string after the opening quote. -/
def parseStrBody : Nat → List Char → Option (List Char × List Char)
  | 0, _ => none
  | fuel + 1, input =>
    match input with
    | [] => none
    | c :: cs =>
      if c == quoteCh then some ([], cs)
      else if c == backslashCh then
        match cs with
        | e :: cs2 =>
          if e == 'u' then
            match parseHex4 cs2 with
            | some (n, cs3) =>
              match parseStrBody fuel cs3 with
              | some (s, r) => some (Char.ofNat n :: s, r)
              | none => none
            | none => none
          else
            match escChar e with
            | some ch =>
              match parseStrBody fuel cs2 with
              | some (s, r) => some (ch :: s, r)
              | none => none
            | none => none
        | [] => none
      else if c.toNat < 32 then none
      else
        match parseStrBody fuel cs with
        | some (s, r) => some (c :: s, r)
        | none => none

end

/-- Model of `JSON.parse`: parse one value and require only whitespace to
remain.  `none` models the thrown `SyntaxError`. -/
def jsParse (s : List Char) : Option Json :=
  match parseVal (s.length + 1) s with
  | some (j, rest) => if (skipWs rest).isEmpty then some j else none
  | none => none

/-- Is a parsed value JavaScript `null` (on which property access such as
`jsonData.answer` throws a `TypeError`)? -/
def isNullJson : Json → Bool
  | .null => true
  | _ => false

/-- Property access `j.key` on a parsed non-null value: a field of an
object, `undefined` otherwise (JSON duplicate keys: last wins). -/
def jsGet (j : Json) (key : List Char) : JsVal :=
  match j with
  | .obj fields => fields.foldl (fun acc f => if f.1 = key then JsVal.val f.2 else acc) .undefinedV
  | _ => .undefinedV

/-- Is the digit part of a JSON number lexeme (before any exponent) all
zeros?  Exactly then the numeric value is `±0`, i.e. falsy. -/
def numLexemeIsZero (lex : List Char) : Bool :=
  (lex.takeWhile (fun c => !(c == 'e' || c == 'E'))).all (fun c => !isDigitCh c || c == '0')

/-- JavaScript truthiness of a value, as used by `if (jsonData.sources)`. -/
def truthy : JsVal → Bool
  | .undefinedV => false
  | .val .null => false
  | .val (.bool b) => b
  | .val (.str s) => !s.isEmpty
  | .val (.num lex) => !numLexemeIsZero lex
  | .val (.arr _) => true
  | .val (.obj _) => true

/-- `String.trim` whitespace test: does the buffer survive trimming,
i.e. contain a non-whitespace character?  (`if (buffer.trim())`). -/
def isTrimWs (c : Char) : Bool :=
  c == ' ' || c == '\t' || c == '\n' || c == '\r' || c == Char.ofNat 11 || c == Char.ofNat 12

def trimmedNonempty (s : List Char) : Bool := s.any (fun c => !isTrimWs c)

/-- Contiguous-substring test, for `contentType?.includes('application/json')`. -/
def leadsWith : List Char → List Char → Bool
  | [], _ => true
  | _ :: _, [] => false
  | x :: xs, y :: ys => x == y && leadsWith xs ys

def listHasSub (needle hay : List Char) : Bool :=
  match hay with
  | [] => needle.isEmpty
  | _ :: t => leadsWith needle hay || listHasSub needle t

def ctIncludesJson : Option (List Char) → Bool
  | none => false
  | some ct => listHasSub ("application/json".toList) ct

/-- One React state mutation issued by the hook, plus a marker for the
single outbound `fetch` call. -/
inductive Eff where
  | setAnswer : JsVal → Eff
  | setSources : JsVal → Eff
  | setLoading : Bool → Eff
  | setError : Option (List Char) → Eff
  | fetch : Eff

/-- The hook's state slot: `answer`, `sources`, `isLoading`, `error`. -/
structure HookState where
  answer : JsVal
  sources : JsVal
  isLoading : Bool
  error : Option (List Char)

def applyEff (s : HookState) : Eff → HookState
  | .setAnswer v => { s with answer := v }
  | .setSources v => { s with sources := v }
  | .setLoading b => { s with isLoading := b }
  | .setError e => { s with error := e }
  | .fetch => s

def runEffs (s : HookState) (es : List Eff) : HookState := es.foldl applyEff s

/-- The hook's initial `useState` values. -/
def initState : HookState := ⟨.val (.str []), .val (.arr []), false, none⟩

def ansKey : List Char := "answer".toList

def srcKey : List Char := "sources".toList

/-- `if (jsonData.sources) { setSources(jsonData.sources); }`. -/
def sourcesEffs (j : Json) : List Eff :=
  if truthy (jsGet j srcKey) then [.setSources (jsGet j srcKey)] else []

/-- A transport response as seen by `query`: `ok` status flag, status text,
declared content type, body (`none` models a null body; otherwise the
already-decoded text chunks in arrival order), and whether a read of the
body fails after the listed chunks were delivered. -/
structure Resp where
  ok : Bool
  statusText : List Char
  contentType : Option (List Char)
  body : Option (List (List Char))
  streamFails : Bool

def joinChunks : Option (List (List Char)) → List Char
  | none => []
  | some cs => cs.flatten

/-- The per-chunk loop of the streaming branch: append the chunk to the
accumulation buffer and attempt `JSON.parse` of the whole buffer.  On
success, `jsonData.answer` is read — which throws on a parsed `null`,
landing in the same `catch` as a parse failure — then sources are set if
truthy and the buffer cleared; on failure the raw buffer becomes the
answer.  Returns the emitted effects and the final buffer. -/
def runChunks : List (List Char) → List Char → List Eff × List Char
  | [], buffer => ([], buffer)
  | c :: cs, buffer =>
    let b := buffer ++ c
    match jsParse b with
    | some j =>
      if isNullJson j then
        let r := runChunks cs b
        (Eff.setAnswer (.val (.str b)) :: r.1, r.2)
      else
        let r := runChunks cs []
        (Eff.setAnswer (jsGet j ansKey) :: (sourcesEffs j ++ r.1), r.2)
    | none =>
      let r := runChunks cs b
      (Eff.setAnswer (.val (.str b)) :: r.1, r.2)

/-- End-of-stream handling (`done` branch): reparse a non-blank leftover
buffer and populate `sources` if present; `finalData.sources` on a parsed
`null` throws into the surrounding silent `catch`. -/
def doneEffs (buffer : List Char) : List Eff :=
  if trimmedNonempty buffer then
    match jsParse buffer with
    | some j => if isNullJson j then [] else sourcesEffs j
    | none => []
  else []

def reqFailMsg (statusText : List Char) : List Char :=
  "API request failed: ".toList ++ statusText

def streamFailMsg : List Char := "Failed to read streaming response".toList

def noBodyMsg : List Char := "No response body received".toList

/-- Modelled host `SyntaxError` message from a failed `response.json()`. -/
def jsonSyntaxMsg : List Char := "Unexpected end of JSON input".toList

/-- Modelled host `TypeError` message from reading `.answer` of `null`. -/
def nullAccessMsg : List Char :=
  "Cannot read properties of null".toList

/-- Modelled host error message when reading the body for `response.json()`
fails mid-transfer. -/
def bodyReadFailMsg : List Char := "Failed to fetch response body".toList

/-- The `application/json` (non-streaming) branch: decode the full body
via `JSON.parse`, then `setAnswer(data.answer); setSources(data.sources)`.
A parsed `null` throws on property access; a parse failure rejects; either
lands in the outer `catch`. -/
def jsonBranch (bodyText : List Char) : List Eff :=
  match jsParse bodyText with
  | some j =>
    if isNullJson j then [.setError (some nullAccessMsg)]
    else [.setAnswer (jsGet j ansKey), .setSources (jsGet j srcKey)]
  | none => [.setError (some jsonSyntaxMsg)]

/-- Effects before the branch: `setIsLoading(true); setError(null);
setAnswer(''); setSources([])`, then the single `fetch`. -/
def initEffs : List Eff :=
  [.setLoading true, .setError none, .setAnswer (.val (.str [])),
   .setSources (.val (.arr [])), .fetch]

/-- The body of `query`'s `try`/`catch`, after the initial clears. -/
def queryBody (r : Resp) : List Eff :=
  if r.ok = false then [.setError (some (reqFailMsg r.statusText))]
  else if ctIncludesJson r.contentType then
    if r.streamFails then [.setError (some bodyReadFailMsg)]
    else jsonBranch (joinChunks r.body)
  else
    match r.body with
    | some cs =>
      let run := runChunks cs []
      if r.streamFails then run.1 ++ [.setError (some streamFailMsg)]
      else run.1 ++ doneEffs run.2
    | none => [.setError (some noBodyMsg)]

/-- The full effect trace of one `query` invocation: initial clears and
`fetch`, the branch body (errors landing in `catch` as `setError`), and
the `finally { setIsLoading(false) }`. -/
def queryEffects (r : Resp) : List Eff :=
  initEffs ++ queryBody r ++ [.setLoading false]

/-- The final hook state after `query` resolves, starting from `s`. -/
def runQuery (s : HookState) (r : Resp) : HookState := runEffs s (queryEffects r)

/-- The `reset` operation: `setAnswer(''); setSources([]); setError(null)`. -/
def resetEffects : List Eff :=
  [.setAnswer (.val (.str [])), .setSources (.val (.arr [])), .setError none]

def runReset (s : HookState) : HookState := runEffs s resetEffects

/-- Embedding of a JavaScript string literal as a state value. -/
def jstr (s : String) : JsVal := .val (.str s.toList)

/-- Number of `setSources` mutations in an effect trace. -/
def isSetSourcesEff : Eff → Bool
  | .setSources _ => true
  | _ => false

def sourcesWrites (es : List Eff) : Nat := es.countP (fun e => isSetSourcesEff e)

/-- Number of iterations of the streaming loop in which the accumulated
buffer parses as complete JSON whose property access does not throw
(i.e. the successful-parse branch is taken and the buffer cleared). -/
def loopSuccesses : List (List Char) → List Char → Nat
  | [], _ => 0
  | c :: cs, b =>
    let b2 := b ++ c
    match jsParse b2 with
    | some j => if isNullJson j then loopSuccesses cs b2 else 1 + loopSuccesses cs []
    | none => loopSuccesses cs b2

/-- Upper bound on non-initial `setSources` writes a response can cause:
one per successful whole-buffer parse in the streaming loop, one for a
successfully decoded JSON body, none on any error path. -/
def sourcesBudget (r : Resp) : Nat :=
  if r.ok = false then 0
  else if ctIncludesJson r.contentType then 1
  else
    match r.body with
    | some cs => loopSuccesses cs []
    | none => 0

/-- Does the modelled `query` run hit any error (non-2xx, failed body
read/decode, null body, or `TypeError` on a parsed `null`)? -/
def errorArises (r : Resp) : Bool :=
  !r.ok ||
  (if ctIncludesJson r.contentType then
     r.streamFails ||
       (match jsParse (joinChunks r.body) with
        | some j => isNullJson j
        | none => true)
   else
     match r.body with
     | some _ => r.streamFails
     | none => true)

/-- Modelled from the claim for the refinement comparison: the streaming
branch with the end-of-stream reparse step removed (the `done` branch
keeps no `JSON.parse` attempt on the leftover buffer). -/
def queryBodyNoReparse (r : Resp) : List Eff :=
  if r.ok = false then [.setError (some (reqFailMsg r.statusText))]
  else if ctIncludesJson r.contentType then
    if r.streamFails then [.setError (some bodyReadFailMsg)]
    else jsonBranch (joinChunks r.body)
  else
    match r.body with
    | some cs =>
      let run := runChunks cs []
      if r.streamFails then run.1 ++ [.setError (some streamFailMsg)]
      else run.1
    | none => [.setError (some noBodyMsg)]

def queryEffectsNoReparse (r : Resp) : List Eff :=
  initEffs ++ queryBodyNoReparse r ++ [.setLoading false]

/-! ## Concrete responses used by the spec's testable properties -/

/-- The complete streamed JSON document of the streaming-JSON-reveal
property. -/
def docC1 : List Char :=
  "\x7b\"answer\":\"final\",\"sources\":[\x7b\"title\":\"T\",\"url\":\"u\",\"source_type\":\"github\",\"relevance_score\":0.5,\"snippet\":\"s\"\x7d],\"query\":\"q\",\"timestamp\":\"t\"\x7d".toList

/-- The citation object embedded in `docC1`. -/
def citeC1 : Json :=
  .obj [("title".toList, .str "T".toList),
        ("url".toList, .str "u".toList),
        ("source_type".toList, .str "github".toList),
        ("relevance_score".toList, .num "0.5".toList),
        ("snippet".toList, .str "s".toList)]

/-- `docC1` parsed: the QueryResponse document with the one citation. -/
def objC1 : Json :=
  .obj [("answer".toList, .str "final".toList),
        ("sources".toList, .arr [citeC1]),
        ("query".toList, .str "q".toList),
        ("timestamp".toList, .str "t".toList)]

def respC2 : Resp :=
  ⟨true, [], some ("text/event-stream".toList),
   some ["Hel".toList, "lo wor".toList, "ld".toList], false⟩

def bodyC3 : List Char :=
  "\x7b\"answer\":\"A\",\"sources\":[],\"query\":\"q\",\"timestamp\":\"t\"\x7d".toList

def respC3 : Resp := ⟨true, [], some ("application/json".toList), some [bodyC3], false⟩

/-- A stream delivering two complete JSON documents, each carrying a
(truthy) `sources` array, as two chunks. -/
def respC4 : Resp :=
  ⟨true, [], none,
   some ["\x7b\"answer\":\"a\",\"sources\":[1]\x7d".toList,
         "\x7b\"answer\":\"b\",\"sources\":[2]\x7d".toList], false⟩

/-- A stream whose single chunk is the bare JSON scalar `42`. -/
def respC10 : Resp := ⟨true, [], none, some ["42".toList], false⟩

/-! ## Helper lemmas -/

lemma runEffs_append (s : HookState) (l1 l2 : List Eff) :
    runEffs s (l1 ++ l2) = runEffs (runEffs s l1) l2 := by
  simp [runEffs, List.foldl_append]

lemma runEffs_err_tail (s : HookState) (pre : List Eff) (m : List Char) :
    runEffs s (pre ++ [Eff.setError (some m), Eff.setLoading false]) =
      ⟨(runEffs s pre).answer, (runEffs s pre).sources, false, some m⟩ := by
  rw [runEffs_append]; rfl

lemma jsParse_nil : jsParse [] = none := rfl

/-- A buffer that fails to parse, or parses to `null` (so that property
access throws), is never cleared by the loop and keeps that property. -/
def bufferStuck (b : List Char) : Prop :=
  jsParse b = none ∨ jsParse b = some Json.null

lemma runChunks_stuck (cs : List (List Char)) :
    ∀ b, bufferStuck b → bufferStuck (runChunks cs b).2 := by
  induction cs with
  | nil => intro b h; exact h
  | cons c cs ih =>
    intro b _
    rw [runChunks]
    rcases hp : jsParse (b ++ c) with _ | j
    · simpa [hp] using ih (b ++ c) (Or.inl hp)
    · by_cases hj : isNullJson j = true
      · have hnull : j = Json.null := by cases j <;> simp_all [isNullJson]
        subst hnull
        simpa [hp, isNullJson] using ih (b ++ c) (Or.inr hp)
      · simpa [hp, hj] using ih [] (Or.inl jsParse_nil)

lemma doneEffs_stuck (b : List Char) (h : bufferStuck b) : doneEffs b = [] := by
  rcases h with h | h <;> simp [doneEffs, h, isNullJson]

lemma sourcesEffs_writes_le (j : Json) : sourcesWrites (sourcesEffs j) ≤ 1 := by
  unfold sourcesEffs
  split <;> simp [sourcesWrites, List.countP_cons, isSetSourcesEff]

lemma sourcesWrites_runChunks (cs : List (List Char)) :
    ∀ b, sourcesWrites (runChunks cs b).1 ≤ loopSuccesses cs b := by
  induction cs with
  | nil => intro b; simp [runChunks, loopSuccesses, sourcesWrites]
  | cons c cs ih =>
    intro b
    rw [runChunks, loopSuccesses]
    rcases hp : jsParse (b ++ c) with _ | j
    · simpa [hp, sourcesWrites, List.countP_cons, isSetSourcesEff] using ih (b ++ c)
    · by_cases hj : isNullJson j = true
      · simpa [hp, hj, sourcesWrites, List.countP_cons, isSetSourcesEff] using ih (b ++ c)
      · have h1 := sourcesEffs_writes_le j
        have h2 := ih []
        simp only [hp, hj, sourcesWrites, List.countP_cons, List.countP_append,
          isSetSourcesEff, if_false, Bool.false_eq_true, ite_false] at *
        omega

lemma jsonBranch_writes_le (t : List Char) : sourcesWrites (jsonBranch t) ≤ 1 := by
  unfold jsonBranch
  rcases jsParse t with _ | j
  · simp [sourcesWrites, List.countP_cons, isSetSourcesEff]
  · by_cases hj : isNullJson j = true <;>
      simp [hj, sourcesWrites, List.countP_cons, isSetSourcesEff]

lemma error_decomp (r : Resp) (m : List Char) (pre' : List Eff) (s : HookState)
    (hq : queryBody r = pre' ++ [Eff.setError (some m)]) :
    queryEffects r = (initEffs ++ pre') ++ [Eff.setError (some m), Eff.setLoading false] ∧
      (runQuery s r).error = some m ∧
      (runQuery s r).isLoading = false ∧
      (runQuery s r).answer = (runEffs s (initEffs ++ pre')).answer := by
  have he : queryEffects r =
      (initEffs ++ pre') ++ [Eff.setError (some m), Eff.setLoading false] := by
    simp [queryEffects, hq]
  have hs : runQuery s r =
      ⟨(runEffs s (initEffs ++ pre')).answer, (runEffs s (initEffs ++ pre')).sources,
       false, some m⟩ := by
    rw [runQuery, he, runEffs_err_tail]
  exact ⟨he, by rw [hs], by rw [hs], by rw [hs]⟩

/-! ## The claims -/

/-- C8: `reset` sets `answer` to `""`, `sources` to `[]` and `error` to
`null`, leaves `isLoading` unchanged, performs no network call, and is
idempotent. -/
theorem reset_frame (s : HookState) :
    (runReset s).answer = jstr "" ∧
    (runReset s).sources = JsVal.val (.arr []) ∧
    (runReset s).error = none ∧
    (runReset s).isLoading = s.isLoading ∧
    Eff.fetch ∉ resetEffects ∧
    runReset (runReset s) = runReset s := by
  refine ⟨rfl, rfl, rfl, rfl, ?_, rfl⟩
  intro hmem
  simp [resetEffects] at hmem

/-- C3: a `Content-Type: application/json` response with body
`«answer: A, sources: [], query: q, timestamp: t»` completes with
`answer = "A"`, `sources = []`, `error = null`, `isLoading = false`. -/
theorem json_roundtrip (s : HookState) :
    (runQuery s respC3).answer = jstr "A" ∧
    (runQuery s respC3).sources = JsVal.val (.arr []) ∧
    (runQuery s respC3).error = none ∧
    (runQuery s respC3).isLoading = false :=
  ⟨rfl, rfl, rfl, rfl⟩

/-- C2: a non-JSON stream delivering chunks `"Hel"`, `"lo wor"`, `"ld"`
emits exactly one progressive `setAnswer` per chunk — so after each chunk
the answer state equals the accumulated buffer — and the final answer is
`"Hello world"`.  (`initEffs` has five effects, hence the `take` bounds.) -/
theorem stream_text_reveal (s : HookState) :
    queryEffects respC2 =
      initEffs ++ [.setAnswer (jstr "Hel"), .setAnswer (jstr "Hello wor"),
                   .setAnswer (jstr "Hello world"), .setLoading false] ∧
    (runEffs s ((queryEffects respC2).take 6)).answer = jstr "Hel" ∧
    (runEffs s ((queryEffects respC2).take 7)).answer = jstr "Hello wor" ∧
    (runEffs s ((queryEffects respC2).take 8)).answer = jstr "Hello world" ∧
    (runQuery s respC2).answer = jstr "Hello world" :=
  ⟨rfl, rfl, rfl, rfl, rfl⟩

/-- C6: on a non-2xx response the emitted effects are the same whatever
the content type, body or stream behaviour (the body is never inspected),
`error` is the request-failed message carrying the status text (that text
is a suffix of the message), `isLoading` ends `false` and `answer` is the
empty string. -/
theorem non2xx_handling (st : List Char) (ct ct2 : Option (List Char))
    (b b2 : Option (List (List Char))) (sf sf2 : Bool) (s : HookState) :
    queryEffects ⟨false, st, ct, b, sf⟩ = queryEffects ⟨false, st, ct2, b2, sf2⟩ ∧
    (runQuery s ⟨false, st, ct, b, sf⟩).error = some (reqFailMsg st) ∧
    (runQuery s ⟨false, st, ct, b, sf⟩).isLoading = false ∧
    (runQuery s ⟨false, st, ct, b, sf⟩).answer = jstr "" ∧
    reqFailMsg st = "API request failed: ".toList ++ st :=
  ⟨rfl, rfl, rfl, rfl, rfl⟩

/-- C7: a 2xx response with a non-JSON content type and a null body yields
the empty-response error message and `isLoading = false`. -/
theorem empty_body_error (st : List Char) (ct : Option (List Char)) (sf : Bool)
    (s : HookState) (hct : ctIncludesJson ct = false) :
    (runQuery s ⟨true, st, ct, none, sf⟩).error = some noBodyMsg ∧
    (runQuery s ⟨true, st, ct, none, sf⟩).isLoading = false := by
  have hd := error_decomp ⟨true, st, ct, none, sf⟩ noBodyMsg [] s
    (by simp [queryBody, hct])
  exact ⟨hd.2.1, hd.2.2.1⟩

theorem empty_body_error_witness :
    ctIncludesJson none = false ∧
    ((runQuery initState ⟨true, [], none, none, false⟩).error = some noBodyMsg ∧
     (runQuery initState ⟨true, [], none, none, false⟩).isLoading = false) :=
  ⟨rfl, empty_body_error [] none false initState rfl⟩

/-- C10: a non-JSON stream whose accumulated buffer is the bare scalar
`42` parses successfully but has no `answer` field, so the hook assigns
`undefined` to the answer state and clears the accumulation buffer. -/
theorem scalar_stream_undefined_answer (s : HookState) :
    (runChunks ["42".toList] []).1 = [Eff.setAnswer JsVal.undefinedV] ∧
    (runChunks ["42".toList] []).2 = [] ∧
    (runQuery s respC10).answer = JsVal.undefinedV :=
  ⟨rfl, rfl, rfl⟩

/-- C4 counterexample: a streamed response delivering two complete JSON
documents (each with a truthy `sources`) as two chunks performs two
non-initial `setSources` mutations in a single `query` invocation —
refuting "at most one mutation populates `sources`". -/
theorem sources_twice_counterexample :
    sourcesWrites (queryBody respC4) = 2 ∧ sourcesWrites initEffs = 1 :=
  ⟨rfl, rfl⟩

/-- C4 amended: non-initial `sources` writes are bounded by one per
successful whole-buffer parse (`sourcesBudget`: at most one in the
non-streaming path, one per parse success in the streaming path), and a
`setSources` mutation wholly replaces the value — no merging with the
prior state. -/
theorem sources_write_budget (r : Resp) (s : HookState) (v : JsVal) :
    sourcesWrites (queryBody r) ≤ sourcesBudget r ∧
    (applyEff s (.setSources v)).sources = v := by
  refine ⟨?_, rfl⟩
  unfold queryBody sourcesBudget
  cases hok : r.ok
  · simp [sourcesWrites, List.countP_cons, isSetSourcesEff]
  · by_cases hct : ctIncludesJson r.contentType = true
    · cases hsf : r.streamFails
      · simpa [hct, hsf] using jsonBranch_writes_le (joinChunks r.body)
      · simp [hct, hsf, sourcesWrites, List.countP_cons, isSetSourcesEff]
    · rcases hbody : r.body with _ | cs
      · simp [hct, sourcesWrites, List.countP_cons, isSetSourcesEff]
      · have hrun := sourcesWrites_runChunks cs []
        have hdone : doneEffs (runChunks cs []).2 = [] :=
          doneEffs_stuck _ (runChunks_stuck cs [] (Or.inl jsParse_nil))
        cases hsf : r.streamFails <;>
          simp [hct, hsf, hdone, sourcesWrites, List.countP_append,
            List.countP_cons, isSetSourcesEff] <;>
          simpa [sourcesWrites] using hrun

/-- C9: the end-of-stream reparse never changes state — the leftover
buffer either is blank or already failed (or null-parsed) the identical
in-loop attempt — so the reconciliation with the reparse step removed is
extensionally equal to the implemented one. -/
theorem done_reparse_redundant (r : Resp) : queryEffectsNoReparse r = queryEffects r := by
  have hb : queryBodyNoReparse r = queryBody r := by
    unfold queryBodyNoReparse queryBody
    cases hok : r.ok
    · rfl
    · by_cases hct : ctIncludesJson r.contentType = true
      · simp [hct]
      · rcases hbody : r.body with _ | cs
        · simp [hct]
        · have hd : doneEffs (runChunks cs []).2 = [] :=
            doneEffs_stuck _ (runChunks_stuck cs [] (Or.inl jsParse_nil))
          cases hsf : r.streamFails <;> simp [hct, hsf, hd]
  unfold queryEffectsNoReparse queryEffects
  rw [hb]

/-- C5: whenever an error arises (non-2xx, failed body read/decode, or a
null/absent body), the effect trace ends with exactly `setError` followed
by the `finally` `setLoading false` — so the error is stored, `answer`
keeps whatever value the preceding effects reached (error handling never
touches it), `isLoading` ends `false`, and (the trace being total) nothing
escapes the reconciliation boundary. -/
theorem error_containment (r : Resp) (s : HookState) (h : errorArises r = true) :
    ∃ m pre, queryEffects r = pre ++ [Eff.setError (some m), Eff.setLoading false] ∧
      (runQuery s r).error = some m ∧
      (runQuery s r).isLoading = false ∧
      (runQuery s r).answer = (runEffs s pre).answer := by
  cases hok : r.ok
  · exact ⟨_, _, error_decomp r (reqFailMsg r.statusText) [] s (by simp [queryBody, hok])⟩
  · by_cases hct : ctIncludesJson r.contentType = true
    · cases hsf : r.streamFails
      · rcases hp : jsParse (joinChunks r.body) with _ | j
        · exact ⟨_, _, error_decomp r jsonSyntaxMsg [] s
            (by simp [queryBody, jsonBranch, hok, hct, hsf, hp])⟩
        · have hj : isNullJson j = true := by
            simp [errorArises, hok, hct, hsf, hp] at h
            exact h
          exact ⟨_, _, error_decomp r nullAccessMsg [] s
            (by simp [queryBody, jsonBranch, hok, hct, hsf, hp, hj])⟩
      · exact ⟨_, _, error_decomp r bodyReadFailMsg [] s
          (by simp [queryBody, hok, hct, hsf])⟩
    · rcases hbody : r.body with _ | cs
      · exact ⟨_, _, error_decomp r noBodyMsg [] s (by simp [queryBody, hok, hct, hbody])⟩
      · have hsf : r.streamFails = true := by
          simp [errorArises, hok, hct, hbody] at h
          exact h
        exact ⟨_, _, error_decomp r streamFailMsg ((runChunks cs []).1) s
          (by simp [queryBody, hok, hct, hbody, hsf])⟩

theorem error_containment_witness :
    errorArises ⟨false, "Internal Server Error".toList, none, none, false⟩ = true ∧
    (∃ m pre,
      queryEffects ⟨false, "Internal Server Error".toList, none, none, false⟩ =
        pre ++ [Eff.setError (some m), Eff.setLoading false] ∧
      (runQuery initState ⟨false, "Internal Server Error".toList, none, none, false⟩).error =
        some m ∧
      (runQuery initState ⟨false, "Internal Server Error".toList, none, none, false⟩).isLoading =
        false ∧
      (runQuery initState ⟨false, "Internal Server Error".toList, none, none, false⟩).answer =
        (runEffs initState pre).answer) :=
  ⟨rfl, error_containment _ initState rfl⟩

/-! ## C1: streaming-JSON reveal, independent of chunk boundaries -/

set_option maxRecDepth 100000 in
lemma jsParse_docC1 : jsParse docC1 = some objC1 := rfl

set_option maxRecDepth 100000 in
lemma docC1_prefixes_fail_all :
    (List.range docC1.length).all (fun n => (jsParse (docC1.take n)).isNone) = true := by
  decide

lemma docC1_prefixes_fail {n : Nat} (hn : n < docC1.length) :
    jsParse (docC1.take n) = none := by
  have h := List.all_eq_true.mp docC1_prefixes_fail_all n (List.mem_range.mpr hn)
  exact Option.isNone_iff_eq_none.mp h

set_option maxRecDepth 100000 in
/-- Running the streaming loop over any partition of `docC1` into nonempty
chunks: every intermediate buffer is a proper prefix (which fails to
parse), and the last chunk completes the document, so the loop ends with
`setAnswer "final"` then `setSources` of the one citation, buffer cleared. -/
lemma runChunks_docC1 (cs : List (List Char)) :
    ∀ b, (∀ c ∈ cs, c ≠ ([] : List Char)) → cs ≠ [] → b ++ cs.flatten = docC1 →
      b.length < docC1.length →
      ∃ pre, runChunks cs b =
        (pre ++ [Eff.setAnswer (jstr "final"),
                 Eff.setSources (JsVal.val (.arr [citeC1]))], []) := by
  induction cs with
  | nil => intro b _ hne _ _; exact absurd rfl hne
  | cons c cs ih =>
    intro b hpos _ hjoin _
    rcases eq_or_ne cs [] with hcs | hcs
    · subst hcs
      have hbc : b ++ c = docC1 := by simpa using hjoin
      refine ⟨[], ?_⟩
      rw [runChunks]
      simp only [hbc, jsParse_docC1]
      rfl
    · have hpos2 : ∀ d ∈ cs, d ≠ ([] : List Char) :=
        fun d hd => hpos d (List.mem_cons_of_mem _ hd)
      have hjoin2 : (b ++ c) ++ cs.flatten = docC1 := by
        simpa [List.append_assoc] using hjoin
      have hflat : cs.flatten ≠ [] := by
        rcases cs with _ | ⟨d, ds⟩
        · exact absurd rfl hcs
        · have hd : d ≠ [] := hpos2 d (List.mem_cons_self _ _)
          simp only [List.flatten_cons]
          intro hcon
          exact hd (List.append_eq_nil.mp hcon).1
      have hlen2 : (b ++ c).length < docC1.length := by
        have hl := congrArg List.length hjoin2
        rw [List.length_append] at hl
        have hp0 : 0 < cs.flatten.length := List.length_pos.mpr hflat
        omega
      have hpref : docC1.take (b ++ c).length = b ++ c := by
        rw [← hjoin2]
        exact List.take_left _ _
      have hfail : jsParse (b ++ c) = none := by
        have h := docC1_prefixes_fail hlen2
        rwa [hpref] at h
      obtain ⟨pre, hrec⟩ := ih (b ++ c) hpos2 hcs hjoin2 hlen2
      refine ⟨Eff.setAnswer (JsVal.val (.str (b ++ c))) :: pre, ?_⟩
      rw [runChunks]
      simp only [hfail, hrec, List.cons_append]

/-- C1: for every partition of `docC1` into nonempty chunks, streamed with
a non-JSON content type, the final state has `answer = "final"` and
`sources` equal to exactly the one embedded citation, independent of where
the chunk boundaries fall. -/
theorem stream_json_reveal (cs : List (List Char)) (st : List Char)
    (ct : Option (List Char)) (s : HookState)
    (hct : ctIncludesJson ct = false) (hne : cs ≠ [])
    (hpos : ∀ c ∈ cs, c ≠ ([] : List Char)) (hjoin : cs.flatten = docC1) :
    (runQuery s ⟨true, st, ct, some cs, false⟩).answer = jstr "final" ∧
    (runQuery s ⟨true, st, ct, some cs, false⟩).sources = JsVal.val (.arr [citeC1]) := by
  obtain ⟨pre, hrc⟩ := runChunks_docC1 cs [] hpos hne (by simpa using hjoin)
    (by simp [docC1])
  have hq : queryBody ⟨true, st, ct, some cs, false⟩ =
      pre ++ [Eff.setAnswer (jstr "final"),
              Eff.setSources (JsVal.val (.arr [citeC1]))] := by
    simp [queryBody, hct, hrc, doneEffs, trimmedNonempty]
  have he : queryEffects ⟨true, st, ct, some cs, false⟩ =
      (initEffs ++ pre) ++ [Eff.setAnswer (jstr "final"),
        Eff.setSources (JsVal.val (.arr [citeC1])), Eff.setLoading false] := by
    simp [queryEffects, hq]
  rw [runQuery, he, runEffs_append]
  exact ⟨rfl, rfl⟩

theorem stream_json_reveal_witness :
    (ctIncludesJson (some ("text/event-stream".toList)) = false ∧
     ([docC1.take 10, docC1.drop 10] : List (List Char)) ≠ [] ∧
     (∀ c ∈ ([docC1.take 10, docC1.drop 10] : List (List Char)), c ≠ ([] : List Char)) ∧
     ([docC1.take 10, docC1.drop 10] : List (List Char)).flatten = docC1) ∧
    ((runQuery initState
        ⟨true, [], some ("text/event-stream".toList),
         some [docC1.take 10, docC1.drop 10], false⟩).answer = jstr "final" ∧
     (runQuery initState
        ⟨true, [], some ("text/event-stream".toList),
         some [docC1.take 10, docC1.drop 10], false⟩).sources =
       JsVal.val (.arr [citeC1])) :=
  ⟨⟨rfl, by decide, by decide, by simp⟩,
   stream_json_reveal [docC1.take 10, docC1.drop 10] [] (some ("text/event-stream".toList))
     initState rfl (by decide) (by decide) (by simp)⟩

end VaultIQ
